import Mathlib

/-!
Shallow embedding of `export_to_storage.py`, a single-file export job:
a paginated row fetcher (`fetch_all_rows`), a CSV encoder
(`rows_to_csv_bytes`, built on Python's `csv.DictWriter` semantics), a
storage uploader (`upload_to_storage`), and an orchestrator
(`export_overwrite` / `main`) that drives a fixed target list.

Python records are insertion-ordered string-keyed mappings; they are
embedded as association lists `List (String × String)` with first-match
lookup. Machine effects (HTTP calls) are embedded by passing the server
as a function from request parameters to a `(status, body)` response,
and the unbounded `while True` fetch loop is embedded with explicit
fuel, returning `none` when the fuel runs out.
-/

namespace ExportToStorage

/-- Record: one source row, an insertion-ordered mapping from column
name to (string-rendered) value, as produced by parsing a JSON row
object. -/
abbrev Record := List (String × String)

/-- Storage: the object store's state, a mapping from object path to
uploaded byte content (bytes as `Nat` values < 256). -/
abbrev Storage := List (String × List Nat)

/-- dictGet: first-match lookup in an association list, the embedding of
Python `dict.get` (dict keys are unique, so first match is the match). -/
def dictGet {β : Type} (k : String) : List (String × β) → Option β
  | [] => none
  | (k', v) :: rest => if k' = k then some v else dictGet k rest

/-- keys: the key sequence of a record, in insertion order, the
embedding of `dict.keys()`. -/
def keys (r : Record) : List String := r.map Prod.fst

/-- isErrStatus: the statuses for which `requests.Response.raise_for_status`
raises `HTTPError`, namely 4xx client errors and 5xx server errors. -/
def isErrStatus (s : Nat) : Prop := 400 ≤ s ∧ s < 600

instance (s : Nat) : Decidable (isErrStatus s) := by
  unfold isErrStatus; infer_instance

/-! ## CSV encoder (`rows_to_csv_bytes`)

The source builds a `csv.DictWriter` over `io.StringIO` with
`fieldnames = list(rows[0].keys())` and `extrasaction="ignore"`, calls
`writeheader()` then `writerows(rows)`, and UTF-8-encodes the result.
The embedding mirrors CPython's `_csv` writer with the default dialect:
delimiter `,`, quote char `"`, line terminator `"\r\n"`, QUOTE_MINIMAL
(quote a field iff it contains the delimiter, the quote char, or a line
terminator character, doubling embedded quotes), and the special case
that a record consisting of a single empty field is written as `""`. -/

/-- needsQuote: QUOTE_MINIMAL quoting trigger — delimiter, quote char,
or a character of the line terminator `"\r\n"`. -/
def needsQuote (c : Char) : Bool :=
  c = ',' || c = '"' || c = '\r' || c = '\n'

/-- escapeQuotes: double every embedded quote char, as the csv writer
does inside a quoted field. -/
def escapeQuotes : List Char → List Char
  | [] => []
  | c :: cs => if c = '"' then '"' :: '"' :: escapeQuotes cs else c :: escapeQuotes cs

/-- csvField: serialize one field under QUOTE_MINIMAL. -/
def csvField (s : String) : String :=
  if s.data.any needsQuote then "\"" ++ String.mk (escapeQuotes s.data) ++ "\"" else s

/-- writeRecord: one `csv.writer.writerow` call — fields joined by the
delimiter (a lone empty field written `""`), plus the `"\r\n"`
terminator. -/
def writeRecord (fields : List String) : String :=
  (if fields = [""] then "\"\"" else String.intercalate "," (fields.map csvField)) ++ "\r\n"

/-- recordFields: `DictWriter._dict_to_list` with `extrasaction="ignore"`
followed by the writer's None-to-empty rendering: for each field name in
order, the record's value, or the empty cell when the key is absent. -/
def recordFields (fieldnames : List String) (r : Record) : List String :=
  fieldnames.map fun k => (dictGet k r).getD ""

/-- rows_to_csv_records: the sequence of CSV records the writer emits —
nothing for an empty dataset (the source returns `b""` before creating
the writer); otherwise the header record (the first record's keys)
followed by one data record per input row. -/
def rows_to_csv_records : List Record → List (List String)
  | [] => []
  | r :: rest => keys r :: (r :: rest).map (recordFields (keys r))

/-- rows_to_csv_string: the accumulated `StringIO` contents — the
written records concatenated. -/
def rows_to_csv_string (rows : List Record) : String :=
  String.join ((rows_to_csv_records rows).map writeRecord)

/-- utf8Encode: the UTF-8 encoding of one code point, as byte values. -/
def utf8Encode (c : Char) : List Nat :=
  let n := c.toNat
  if n < 128 then [n]
  else if n < 2048 then [192 + n / 64, 128 + n % 64]
  else if n < 65536 then [224 + n / 4096, 128 + n / 64 % 64, 128 + n % 64]
  else [240 + n / 262144, 128 + n / 4096 % 64, 128 + n / 64 % 64, 128 + n % 64]

/-- strBytes: `str.encode("utf-8")` — the byte sequence of a string. -/
def strBytes (s : String) : List Nat := s.data.flatMap utf8Encode

/-- rows_to_csv_bytes: the CSV byte buffer for a dataset (`b""` for the
empty dataset). -/
def rows_to_csv_bytes (rows : List Record) : List Nat :=
  strBytes (rows_to_csv_string rows)

/-! ## Row fetcher (`fetch_all_rows`)

The backend is embedded as a function from the request's `limit` and
`offset` parameters to the HTTP response: a status code and the parsed
JSON body (a list of row objects). The `while True` loop takes explicit
fuel; `none` means the fuel ran out before the loop exited. -/

/-- FetchOutcome: how `fetch_all_rows` exits — normally with the
accumulated rows, or by raising on an error status. Either way the
number of HTTP requests issued is recorded. -/
inductive FetchOutcome where
  | success (rows : List Record) (requests : Nat)
  | failure (status : Nat) (requests : Nat)
  deriving DecidableEq, Repr

/-- fetchAux: the fetch loop body. Each iteration issues one request at
the current offset; `raise_for_status` aborts on a 4xx/5xx status, an
empty body breaks the loop, and otherwise the batch is appended and the
offset advanced by the page size. -/
def fetchAux (server : Nat → Nat → Nat × List Record) (page_size : Nat) :
    Nat → Nat → List Record → Nat → Option FetchOutcome
  | 0, _, _, _ => none
  | fuel + 1, offset, acc, reqs =>
    let resp := server page_size offset
    if isErrStatus resp.1 then some (.failure resp.1 (reqs + 1))
    else if resp.2 = [] then some (.success acc (reqs + 1))
    else fetchAux server page_size fuel (offset + page_size) (acc ++ resp.2) (reqs + 1)

/-- fetch_all_rows: run the fetch loop from offset 0 with an empty
accumulator. The source's default page size is 2000. -/
def fetch_all_rows (server : Nat → Nat → Nat × List Record) (page_size : Nat)
    (fuel : Nat) : Option FetchOutcome :=
  fetchAux server page_size fuel 0 [] 0

/-- tableServer: a backend serving a fixed table row list: every request
succeeds (status 200) and the body is the rows from `offset`, at most
`limit` of them — the paging model assumed by the pagination claims. -/
def tableServer (table : List Record) (limit offset : Nat) : Nat × List Record :=
  (200, (table.drop offset).take limit)

/-! ## Storage uploader (`upload_to_storage`) -/

/-- upload_to_storage: given the storage API response to the POST (its
status and JSON acknowledgment body), `raise_for_status` then
`return r.json()` — an error value on 4xx/5xx, the acknowledgment
otherwise. -/
def upload_to_storage (status : Nat) (ack : String) : Except Nat String :=
  if isErrStatus status then .error status else .ok ack

/-- putObject: the storage-side effect of a successful upload with
`x-upsert: true` — the object at the path is created or overwritten
(reads via `dictGet` see the newest write first). -/
def putObject (st : Storage) (path : String) (content : List Nat) : Storage :=
  (path, content) :: st

/-! ## Orchestrator (`export_overwrite` and `main`)

The environment bundles what the outside world answers: the backend's
response per (table, limit, offset) and the storage API's status per
(path, content). A run is traced: each HTTP interaction a target causes
is logged as an event, so that claims about which targets were ever
attempted are statements about the trace. -/

/-- Env: the external world — backend per-table responses and storage
upload statuses. -/
structure Env where
  fetchServer : String → Nat → Nat → Nat × List Record
  uploadStatus : String → List Nat → Nat

/-- Event: one observable HTTP interaction of the run: a (sequence of)
fetch request(s) for a table, or an upload to a path. -/
inductive Event where
  | fetchT (table : String)
  | uploadT (path : String)
  deriving DecidableEq, Repr

/-- export_overwrite: one target's pipeline — fetch all rows (page size
2000, the default), encode to CSV, upload. Returns the trace of this
target's interactions, the resulting storage, and `some status` when a
`raise_for_status` fired (the exception propagating out of the target);
`none` when the fetch loop's fuel ran out. A failed upload leaves the
storage unchanged. -/
def export_overwrite (env : Env) (fuel : Nat) (table outPath : String)
    (st : Storage) : Option (List Event × Storage × Option Nat) :=
  match fetch_all_rows (env.fetchServer table) 2000 fuel with
  | none => none
  | some (.failure s _) => some ([.fetchT table], st, some s)
  | some (.success rows _) =>
    let content := rows_to_csv_bytes rows
    let status := env.uploadStatus outPath content
    if isErrStatus status then some ([.fetchT table, .uploadT outPath], st, some status)
    else some ([.fetchT table, .uploadT outPath], putObject st outPath content, none)

/-- runTargets: the orchestration loop of `main` — each target in list
order through `export_overwrite`, stopping at the first target whose
exception propagates (carried as `some status` in the result). -/
def runTargets (env : Env) (fuel : Nat) :
    List (String × String) → Storage → Option (List Event × Storage × Option Nat)
  | [], st => some ([], st, none)
  | (table, outPath) :: rest, st =>
    match export_overwrite env fuel table outPath st with
    | none => none
    | some (tr, st', some s) => some (tr, st', some s)
    | some (tr, st', none) =>
      match runTargets env fuel rest st' with
      | none => none
      | some (tr', st'', e) => some (tr ++ tr', st'', e)

/-- overwrite_datasets: the fixed target list of `main`, with each
destination path built by the source's f-string
`f"{BASE_PATH}/{table}_{RUNDATE}.csv"`; `basePath` and `rundate` stand
for the process-wide `BASE_PATH` and `RUNDATE` values, the latter
computed once at process start. -/
def overwrite_datasets (basePath rundate : String) : List (String × String) :=
  [ ("users", basePath ++ "/users_" ++ rundate ++ ".csv"),
    ("weekly_sales", basePath ++ "/weekly_sales_" ++ rundate ++ ".csv"),
    ("hubs", basePath ++ "/hubs_" ++ rundate ++ ".csv"),
    ("stations", basePath ++ "/stations_" ++ rundate ++ ".csv"),
    ("bikes", basePath ++ "/bikes_" ++ rundate ++ ".csv"),
    ("rental_logs", basePath ++ "/rental_logs_" ++ rundate ++ ".csv") ]

/-- exportTables: the six source tables of the fixed export list, in
order. -/
def exportTables : List String :=
  ["users", "weekly_sales", "hubs", "stations", "bikes", "rental_logs"]

/-- destKey: the spec's naming convention, stated in its own words:
output object keys follow `{base_path}/{table}_{YYYYMMDD}.csv`. -/
def destKey (basePath table rundate : String) : String :=
  basePath ++ "/" ++ table ++ "_" ++ rundate ++ ".csv"

/-- main: run the fixed export list over the given environment and
initial storage. -/
def main (env : Env) (fuel : Nat) (basePath rundate : String) (st : Storage) :
    Option (List Event × Storage × Option Nat) :=
  runTargets env fuel (overwrite_datasets basePath rundate) st

/-! ## Helper lemmas -/

theorem foldl_append_hoist (l : List String) :
    ∀ a b : String, List.foldl (fun r s => r ++ s) (a ++ b) l
      = a ++ List.foldl (fun r s => r ++ s) b l := by
  induction l with
  | nil => intro a b; rfl
  | cons s l ih => intro a b; simp only [List.foldl_cons, String.append_assoc, ih]

theorem join_cons (s : String) (l : List String) :
    String.join (s :: l) = s ++ String.join l := by
  have h := foldl_append_hoist l s ""
  simp only [String.append_empty] at h
  simpa [String.join] using h

theorem dictGet_filter_mem (fn : List String) (k : String) (hk : k ∈ fn) :
    ∀ r : Record, dictGet k (r.filter fun kv => decide (kv.1 ∈ fn)) = dictGet k r := by
  intro r
  induction r with
  | nil => rfl
  | cons kv rest ih =>
    obtain ⟨k', v⟩ := kv
    by_cases hmem : k' ∈ fn
    · rw [List.filter_cons, if_pos (by simpa using hmem)]
      simp only [dictGet, ih]
    · have hne : k' ≠ k := fun h => hmem (h ▸ hk)
      rw [List.filter_cons, if_neg (by simpa using hmem)]
      simp [dictGet, hne, ih]

theorem destKey_shift (bp t rd seg : String) (hseg : seg = "/" ++ t ++ "_") :
    bp ++ seg ++ rd ++ ".csv" = destKey bp t rd := by
  subst hseg
  simp [destKey, String.append_assoc]

/-! ## Claims about the CSV encoder -/

/-- C4: encoding the empty dataset returns a zero-length byte buffer —
no header row (indeed no output at all) is emitted. -/
theorem csv_empty_dataset :
    rows_to_csv_bytes ([] : List Record) = [] ∧ rows_to_csv_string [] = "" := by
  exact ⟨rfl, rfl⟩

/-- C3: for a non-empty dataset the header record is exactly the first
record's key sequence in its key order (the output starts with that
header row); every data record is computed from the header keys only,
so values under keys outside the header are dropped without error
(filtering a record down to header keys changes nothing); and a header
key absent from a record yields an empty cell at that key's position. -/
theorem csv_header_policy (r : Record) (rest : List Record) :
    rows_to_csv_records (r :: rest) = keys r :: (r :: rest).map (recordFields (keys r))
    ∧ rows_to_csv_string (r :: rest)
        = writeRecord (keys r)
          ++ String.join (((r :: rest).map (recordFields (keys r))).map writeRecord)
    ∧ (∀ r' ∈ r :: rest,
        recordFields (keys r) r'
          = recordFields (keys r) (r'.filter fun kv => decide (kv.1 ∈ keys r)))
    ∧ (∀ r' ∈ r :: rest, ∀ (i : Nat) (k : String),
        (keys r)[i]? = some k → dictGet k r' = none →
        (recordFields (keys r) r')[i]? = some "") := by
  refine ⟨rfl, ?_, ?_, ?_⟩
  · simp only [rows_to_csv_string, rows_to_csv_records, List.map_cons, join_cons]
  · intro r' _
    unfold recordFields
    refine List.map_congr_left fun k hk => ?_
    rw [dictGet_filter_mem (keys r) k hk r']
  · intro r' _ i k hik hnone
    simp [recordFields, List.getElem?_map, hik, hnone]

/-- C10: encoding N records (N ≥ 1) emits exactly N+1 CSV records — the
header plus one data record per input record — and the i-th data record
is the encoding of the i-th input record, preserving input order. -/
theorem csv_record_count_order (r : Record) (rest : List Record) :
    (rows_to_csv_records (r :: rest)).length = (r :: rest).length + 1
    ∧ (rows_to_csv_records (r :: rest)).tail = (r :: rest).map (recordFields (keys r))
    ∧ (∀ i : Nat, (rows_to_csv_records (r :: rest))[i + 1]?
        = ((r :: rest)[i]?).map (recordFields (keys r)))
    ∧ rows_to_csv_string (r :: rest)
        = String.join ((rows_to_csv_records (r :: rest)).map writeRecord) := by
  refine ⟨by simp [rows_to_csv_records], rfl, ?_, rfl⟩
  intro i
  have h : rows_to_csv_records (r :: rest)
      = keys r :: List.map (recordFields (keys r)) (r :: rest) := rfl
  rw [h, List.getElem?_cons_succ, List.getElem?_map]

/-! ## Lemmas about the fetch loop -/

theorem ceil_step (P m : Nat) (hP : 0 < P) (hm : 0 < m) :
    (m + P - 1) / P = (m - P + P - 1) / P + 1 := by
  rcases le_or_lt m P with h | h
  · have hmP : m - P = 0 := by omega
    have e1 : m + P - 1 = (m - 1) + P := by omega
    have e2 : (m - 1) / P = 0 := Nat.div_eq_of_lt (by omega)
    have e3 : (0 + P - 1) / P = 0 := Nat.div_eq_of_lt (by omega)
    rw [hmP, e1, Nat.add_div_right _ hP, e2, e3]
  · have e1 : m + P - 1 = (m - P + P - 1) + P := by omega
    rw [e1, Nat.add_div_right _ hP]

theorem fetchAux_tableServer (table : List Record) (P : Nat) (hP : 0 < P) :
    ∀ (fuel offset : Nat) (acc : List Record) (reqs : Nat),
      (table.length - offset + P - 1) / P + 1 ≤ fuel →
      fetchAux (tableServer table) P fuel offset acc reqs
        = some (.success (acc ++ table.drop offset)
            (reqs + ((table.length - offset + P - 1) / P + 1))) := by
  intro fuel
  induction fuel with
  | zero => intro offset acc reqs h; exact absurd h (Nat.not_succ_le_zero _)
  | succ f ih =>
    intro offset acc reqs h
    simp only [fetchAux, tableServer]
    rw [if_neg (by simp [isErrStatus])]
    by_cases hb : (table.drop offset).take P = []
    · have hlen : table.length ≤ offset := by
        rcases List.take_eq_nil_iff.mp hb with h0 | hdrop
        · omega
        · exact List.drop_eq_nil_iff.mp hdrop
      rw [if_pos hb]
      have hdrop : table.drop offset = [] := List.drop_eq_nil_iff.mpr hlen
      have hsub : table.length - offset = 0 := by omega
      rw [hdrop, List.append_nil, hsub]
      rw [Nat.div_eq_of_lt (show 0 + P - 1 < P by omega)]
    · rw [if_neg hb]
      have hoff : offset < table.length := by
        by_contra hc
        push_neg at hc
        exact hb (by rw [List.drop_eq_nil_iff.mpr hc, List.take_nil])
      have hstep : (table.length - offset + P - 1) / P
          = (table.length - (offset + P) + P - 1) / P + 1 := by
        have hc := ceil_step P (table.length - offset) hP (by omega)
        have e : table.length - offset - P = table.length - (offset + P) := by omega
        rw [e] at hc
        exact hc
      have hfuel' : (table.length - (offset + P) + P - 1) / P + 1 ≤ f := by
        rw [hstep] at h
        exact Nat.succ_le_succ_iff.mp h
      rw [ih (offset + P) (acc ++ (table.drop offset).take P) (reqs + 1) hfuel']
      have hrows : acc ++ (table.drop offset).take P ++ table.drop (offset + P)
          = acc ++ table.drop offset := by
        rw [List.append_assoc]
        have hdd : table.drop (offset + P) = (table.drop offset).drop P := by
          rw [List.drop_drop]
        rw [hdd, List.take_append_drop]
      rw [hrows, hstep]
      congr 2
      ring

/-- C1: against a backend serving a fixed table of R rows as pages of
at most P rows at offsets 0, P, 2P, ... (empty beyond the table),
`fetch_all_rows` returns a success carrying exactly the R table rows in
server order, having issued exactly `ceil(R/P) + 1` requests — written
`(R + P - 1) / P + 1` — and the request at the final offset
`P * ceil(R/P)` (the last one the loop issues) returns the empty page. -/
theorem pagination_complete (table : List Record) (P fuel : Nat) (hP : 0 < P)
    (hfuel : (table.length + P - 1) / P + 1 ≤ fuel) :
    fetch_all_rows (tableServer table) P fuel
      = some (.success table ((table.length + P - 1) / P + 1))
    ∧ (tableServer table P (P * ((table.length + P - 1) / P))).2 = [] := by
  constructor
  · have h := fetchAux_tableServer table P hP fuel 0 [] 0 (by simpa using hfuel)
    simpa [fetch_all_rows] using h
  · have hq : table.length ≤ P * ((table.length + P - 1) / P) := by
      have hdm := Nat.div_add_mod (table.length + P - 1) P
      have hmod : (table.length + P - 1) % P < P := Nat.mod_lt _ hP
      generalize hA : P * ((table.length + P - 1) / P) = A at hdm ⊢
      generalize hB : (table.length + P - 1) % P = B at hdm hmod
      omega
    simp [tableServer, List.drop_eq_nil_iff.mpr hq]

theorem fetchAux_exhaust (server : Nat → Nat → Nat × List Record) (P : Nat) :
    ∀ (k fuel offset : Nat) (acc : List Record) (reqs : Nat),
      (∀ j < k, ¬isErrStatus (server P (offset + j * P)).1
        ∧ (server P (offset + j * P)).2 ≠ []) →
      ¬isErrStatus (server P (offset + k * P)).1 →
      (server P (offset + k * P)).2 = [] →
      k < fuel →
      ∃ rows, fetchAux server P fuel offset acc reqs
        = some (.success rows (reqs + k + 1)) := by
  intro k
  induction k with
  | zero =>
    intro fuel offset acc reqs _ hok hempty hfuel
    obtain ⟨f, rfl⟩ : ∃ f, fuel = f + 1 := ⟨fuel - 1, by omega⟩
    refine ⟨acc, ?_⟩
    simp only [Nat.zero_mul, Nat.add_zero] at hok hempty
    simp only [fetchAux]
    rw [if_neg hok, if_pos hempty]
  | succ k ih =>
    intro fuel offset acc reqs hbefore hok hempty hfuel
    obtain ⟨f, rfl⟩ : ∃ f, fuel = f + 1 := ⟨fuel - 1, by omega⟩
    have h0 := hbefore 0 (Nat.succ_pos k)
    simp only [Nat.zero_mul, Nat.add_zero] at h0
    have harith : ∀ j : Nat, offset + P + j * P = offset + (j + 1) * P := by
      intro j; ring
    have hb' : ∀ j < k, ¬isErrStatus (server P (offset + P + j * P)).1
        ∧ (server P (offset + P + j * P)).2 ≠ [] := by
      intro j hj
      rw [harith j]
      exact hbefore (j + 1) (by omega)
    have hok' : ¬isErrStatus (server P (offset + P + k * P)).1 := by
      rw [harith k]; exact hok
    have hempty' : (server P (offset + P + k * P)).2 = [] := by
      rw [harith k]; exact hempty
    obtain ⟨rows, hr⟩ :=
      ih f (offset + P) (acc ++ (server P offset).2) (reqs + 1) hb' hok' hempty' (by omega)
    refine ⟨rows, ?_⟩
    simp only [fetchAux]
    rw [if_neg h0.1, if_neg h0.2, hr]
    congr 2
    omega

/-- C8: whenever the backend answers the offsets 0, P, ..., (k-1)·P with
successful non-empty pages and offset k·P with a successful empty page,
the fetch loop terminates (with fuel > k it returns a result rather
than running out), and it exits through the normal-exhaustion branch: a
success outcome after k+1 requests, not a failure. -/
theorem fetch_terminates_on_empty_page (server : Nat → Nat → Nat × List Record)
    (P k fuel : Nat)
    (hbefore : ∀ j < k, ¬isErrStatus (server P (j * P)).1 ∧ (server P (j * P)).2 ≠ [])
    (hok : ¬isErrStatus (server P (k * P)).1)
    (hempty : (server P (k * P)).2 = [])
    (hfuel : k < fuel) :
    ∃ rows, fetch_all_rows server P fuel = some (.success rows (k + 1)) := by
  have h := fetchAux_exhaust server P k fuel 0 [] 0
    (by simpa using hbefore) (by simpa using hok) (by simpa using hempty) hfuel
  simpa [fetch_all_rows] using h

theorem fetchAux_failure_status (server : Nat → Nat → Nat × List Record) (P : Nat) :
    ∀ (fuel offset : Nat) (acc : List Record) (reqs s n : Nat),
      fetchAux server P fuel offset acc reqs = some (.failure s n) →
      isErrStatus s ∧ ∃ j : Nat, (server P (offset + j * P)).1 = s := by
  intro fuel
  induction fuel with
  | zero =>
    intro offset acc reqs s n h
    exact absurd h (by simp [fetchAux])
  | succ f ih =>
    intro offset acc reqs s n h
    simp only [fetchAux] at h
    by_cases he : isErrStatus (server P offset).1
    · rw [if_pos he] at h
      simp only [Option.some.injEq, FetchOutcome.failure.injEq] at h
      refine ⟨h.1 ▸ he, 0, by simpa using h.1⟩
    · rw [if_neg he] at h
      by_cases hb : (server P offset).2 = []
      · rw [if_pos hb] at h
        exact absurd h (by simp)
      · rw [if_neg hb] at h
        obtain ⟨herr, j, hj⟩ := ih (offset + P) (acc ++ (server P offset).2) (reqs + 1) s n h
        refine ⟨herr, j + 1, ?_⟩
        rw [← hj]
        congr 1
        ring_nf

theorem fetchAux_failure_reached (server : Nat → Nat → Nat × List Record) (P : Nat) :
    ∀ (k fuel offset : Nat) (acc : List Record) (reqs : Nat),
      (∀ j < k, ¬isErrStatus (server P (offset + j * P)).1
        ∧ (server P (offset + j * P)).2 ≠ []) →
      isErrStatus (server P (offset + k * P)).1 →
      k < fuel →
      fetchAux server P fuel offset acc reqs
        = some (.failure (server P (offset + k * P)).1 (reqs + k + 1)) := by
  intro k
  induction k with
  | zero =>
    intro fuel offset acc reqs _ herr hfuel
    obtain ⟨f, rfl⟩ : ∃ f, fuel = f + 1 := ⟨fuel - 1, by omega⟩
    simp only [Nat.zero_mul, Nat.add_zero] at herr ⊢
    simp only [fetchAux]
    rw [if_pos herr]
  | succ k ih =>
    intro fuel offset acc reqs hbefore herr hfuel
    obtain ⟨f, rfl⟩ : ∃ f, fuel = f + 1 := ⟨fuel - 1, by omega⟩
    have h0 := hbefore 0 (Nat.succ_pos k)
    simp only [Nat.zero_mul, Nat.add_zero] at h0
    have harith : ∀ j : Nat, offset + P + j * P = offset + (j + 1) * P := by
      intro j; ring
    have hb' : ∀ j < k, ¬isErrStatus (server P (offset + P + j * P)).1
        ∧ (server P (offset + P + j * P)).2 ≠ [] := by
      intro j hj
      rw [harith j]
      exact hbefore (j + 1) (by omega)
    have herr' : isErrStatus (server P (offset + P + k * P)).1 := by
      rw [harith k]; exact herr
    simp only [fetchAux]
    rw [if_neg h0.1, if_neg h0.2,
      ih f (offset + P) (acc ++ (server P offset).2) (reqs + 1) hb' herr' (by omega)]
    rw [harith k]
    congr 2
    omega

/-- C5 counterexample: an HTTP response with status 304 is non-2xx, yet
`raise_for_status` does not raise on it — the run below makes exactly
one HTTP call, receives status 304 with an empty body, and
`fetch_all_rows` returns a success rather than an error; likewise
`upload_to_storage` on a 304 response returns the acknowledgment
instead of an error. So "raises a RequestError iff a call returns a
non-2xx status" is false as stated. -/
theorem request_error_counterexample :
    fetch_all_rows (fun _ _ => (304, ([] : List Record))) 2000 2
      = some (.success [] 1)
    ∧ upload_to_storage 304 "ack" = .ok "ack"
    ∧ ¬(200 ≤ 304 ∧ 304 < 300)
    ∧ ¬isErrStatus 304 := by
  refine ⟨by decide, by rfl, by decide, by decide⟩

/-- C5 (amended): `fetch_all_rows` and `upload_to_storage` raise a
RequestError if and only if an HTTP call returns a 4xx or 5xx status
(the statuses `raise_for_status` treats as errors; other non-2xx
statuses such as 304 do not raise). On such a failure the fetch returns
no partial result — the outcome is a failure carrying only the status,
obtained after k+1 requests when the k-th offset fails, so the failing
request is not retried. -/
theorem request_error_iff_4xx_5xx :
    (∀ status ack, upload_to_storage status ack = .error status ↔ isErrStatus status)
    ∧ (∀ (server : Nat → Nat → Nat × List Record) (P fuel s n : Nat),
        fetch_all_rows server P fuel = some (.failure s n) →
        isErrStatus s ∧ ∃ j : Nat, (server P (j * P)).1 = s)
    ∧ (∀ (server : Nat → Nat → Nat × List Record) (P k fuel : Nat),
        (∀ j < k, ¬isErrStatus (server P (j * P)).1 ∧ (server P (j * P)).2 ≠ []) →
        isErrStatus (server P (k * P)).1 →
        k < fuel →
        fetch_all_rows server P fuel
          = some (.failure (server P (k * P)).1 (k + 1))) := by
  refine ⟨?_, ?_, ?_⟩
  · intro status ack
    unfold upload_to_storage
    by_cases h : isErrStatus status
    · simp [h]
    · simp [h]
  · intro server P fuel s n h
    have hs := fetchAux_failure_status server P fuel 0 [] 0 s n (by simpa [fetch_all_rows] using h)
    simpa using hs
  · intro server P k fuel hbefore herr hfuel
    have hr := fetchAux_failure_reached server P k fuel 0 [] 0
      (by simpa using hbefore) (by simpa using herr) hfuel
    simpa [fetch_all_rows] using hr

/-! ## Claims about destination path naming -/

/-- C6: every target in the fixed export list has its destination key
equal to the spec template `{base_path}/{table}_{YYYYMMDD}.csv`, and at
base path `datasets`, table `bikes`, run date `20240115` the key is
exactly `datasets/bikes_20240115.csv`. -/
theorem dest_path_naming :
    (∀ basePath rundate t p, (t, p) ∈ overwrite_datasets basePath rundate →
      p = destKey basePath t rundate)
    ∧ destKey "datasets" "bikes" "20240115" = "datasets/bikes_20240115.csv" := by
  constructor
  · intro bp rd t p hmem
    simp only [overwrite_datasets, List.mem_cons, List.mem_singleton, Prod.mk.injEq,
      List.not_mem_nil, or_false] at hmem
    rcases hmem with ⟨ht, hp⟩ | ⟨ht, hp⟩ | ⟨ht, hp⟩ | ⟨ht, hp⟩ | ⟨ht, hp⟩ | ⟨ht, hp⟩ <;>
      subst ht <;> subst hp <;> refine destKey_shift bp _ rd _ ?_ <;> rfl
  · rfl

/-- C7: the whole fixed target list is generated from one single date
stamp: for every base path and date stamp, the list equals the table
list mapped through the naming template with that one stamp, so every
target's path embeds the same date-stamp string and no target
recomputes it. -/
theorem rundate_single_stamp (bp rd : String) :
    overwrite_datasets bp rd = exportTables.map fun t => (t, destKey bp t rd) := by
  simp only [exportTables, List.map_cons, List.map_nil, overwrite_datasets,
    List.cons.injEq, Prod.mk.injEq, true_and, and_true]
  refine ⟨?_, ?_, ?_, ?_, ?_, ?_⟩ <;> refine destKey_shift bp _ rd _ ?_ <;> rfl

/-! ## Claims about the orchestrator -/

theorem runTargets_append (env : Env) (fuel : Nat) :
    ∀ (pre rest : List (String × String)) (st : Storage) (tr : List Event) (st' : Storage),
      runTargets env fuel pre st = some (tr, st', none) →
      runTargets env fuel (pre ++ rest) st
        = match runTargets env fuel rest st' with
          | none => none
          | some (tr', st'', e) => some (tr ++ tr', st'', e) := by
  intro pre
  induction pre with
  | nil =>
    intro rest st tr st' h
    simp only [runTargets, Option.some.injEq, Prod.mk.injEq] at h
    obtain ⟨h1, h2, -⟩ := h
    subst h1
    subst h2
    rw [List.nil_append]
    cases hr : runTargets env fuel rest st with
    | none => rfl
    | some v => obtain ⟨tr', st'', e⟩ := v; simp
  | cons tp pre ih =>
    intro rest st tr st' h
    obtain ⟨t, p⟩ := tp
    rw [List.cons_append]
    simp only [runTargets] at h ⊢
    cases he : export_overwrite env fuel t p st with
    | none => rw [he] at h; simp at h
    | some v =>
      obtain ⟨tr0, st0, e0⟩ := v
      cases e0 with
      | some s => rw [he] at h; simp at h
      | none =>
        rw [he] at h
        dsimp only at h ⊢
        cases hp : runTargets env fuel pre st0 with
        | none => rw [hp] at h; simp at h
        | some w =>
          obtain ⟨tr1, st1, e1⟩ := w
          rw [hp] at h
          simp only [Option.some.injEq, Prod.mk.injEq] at h
          obtain ⟨h1, h2, h3⟩ := h
          cases e1 with
          | some s => exact absurd h3 (by simp)
          | none =>
            subst h2
            subst h1
            rw [ih rest st0 tr1 st1 hp]
            cases hr : runTargets env fuel rest st1 with
            | none => rfl
            | some w' => obtain ⟨tr', st'', e⟩ := w'; simp [List.append_assoc]

/-- C2: when every target before `(t, p)` succeeds (prefix run ends
with storage `st'` and no error) and target `(t, p)`'s fetch fails —
or its fetch succeeds and its upload gets a 4xx/5xx status — the whole
run terminates with that status surfaced, the final storage is exactly
`st'` (everything uploaded for the earlier targets remains, nothing is
rolled back), and the run's trace is the prefix trace plus at most the
failing target's own fetch/upload events: no fetch or upload is ever
attempted for any target after `(t, p)`. -/
theorem fail_fast_ordering (env : Env) (fuel : Nat)
    (pre post : List (String × String)) (t p : String)
    (st st' : Storage) (trPre : List Event)
    (hpre : runTargets env fuel pre st = some (trPre, st', none))
    (hfail : (∃ s n, fetch_all_rows (env.fetchServer t) 2000 fuel = some (.failure s n))
      ∨ (∃ rows n, fetch_all_rows (env.fetchServer t) 2000 fuel = some (.success rows n)
          ∧ isErrStatus (env.uploadStatus p (rows_to_csv_bytes rows)))) :
    ∃ (trFail : List Event) (s : Nat),
      runTargets env fuel (pre ++ (t, p) :: post) st
        = some (trPre ++ trFail, st', some s)
      ∧ (trFail = [Event.fetchT t] ∨ trFail = [Event.fetchT t, Event.uploadT p]) := by
  have key := runTargets_append env fuel pre ((t, p) :: post) st trPre st' hpre
  rcases hfail with ⟨s, n, hf⟩ | ⟨rows, n, hf, hup⟩
  · refine ⟨[Event.fetchT t], s, ?_, Or.inl rfl⟩
    rw [key]
    simp only [runTargets, export_overwrite, hf]
  · refine ⟨[Event.fetchT t, Event.uploadT p],
      env.uploadStatus p (rows_to_csv_bytes rows), ?_, Or.inr rfl⟩
    rw [key]
    simp only [runTargets, export_overwrite, hf]
    rw [if_pos hup]

/-- C9: a target whose table fetches zero rows still reaches the
uploader: the uploaded body is the zero-length buffer, and (when the
storage API accepts it) an empty object is created or overwritten at
the destination path — the upload is not skipped, and the target
finishes without error. -/
theorem empty_table_still_uploads (env : Env) (fuel : Nat) (t p : String)
    (st : Storage) (n : Nat)
    (hfetch : fetch_all_rows (env.fetchServer t) 2000 fuel = some (.success [] n))
    (hup : ¬isErrStatus (env.uploadStatus p [])) :
    export_overwrite env fuel t p st
      = some ([Event.fetchT t, Event.uploadT p], putObject st p [], none)
    ∧ rows_to_csv_bytes [] = []
    ∧ dictGet p (putObject st p []) = some [] := by
  have hc : rows_to_csv_bytes ([] : List Record) = [] := rfl
  refine ⟨?_, rfl, ?_⟩
  · simp only [export_overwrite, hfetch, hc]
    rw [if_neg hup]
  · simp [putObject, dictGet]

/-! ## Concrete instances for the witnesses -/

/-- sampleTable: a five-row table for exercising pagination. -/
def sampleTable : List Record :=
  [[("id", "1")], [("id", "2")], [("id", "3")], [("id", "4")], [("id", "5")]]

/-- haltingServer: answers offsets below 4 with a one-row page and
everything beyond with an empty page, always with status 200. -/
def haltingServer : Nat → Nat → Nat × List Record :=
  fun _ offset => if offset < 4 then (200, [[("k", "v")]]) else (200, [])

/-- errServer: answers offset 0 with a one-row page and any later
offset with a 503 error. -/
def errServer : Nat → Nat → Nat × List Record :=
  fun _ offset => if offset = 0 then (200, [[("a", "b")]]) else (503, [])

/-- rA: a record with keys a, b, c. -/
def rA : Record := [("a", "1"), ("b", "2"), ("c", "3")]

/-- rB: a record with key b missing and an extra key d. -/
def rB : Record := [("a", "4"), ("d", "9")]

/-- demoEnv: a world where table `weekly_sales` answers with a 500 and
every other table serves one row; all uploads are accepted. -/
def demoEnv : Env where
  fetchServer := fun table _ offset =>
    if table = "weekly_sales" then (500, [])
    else if offset = 0 then (200, [[("id", "1")]]) else (200, [])
  uploadStatus := fun _ _ => 200

/-- demoPre: the prefix target list for the fail-fast witness. -/
def demoPre : List (String × String) := [("users", "u.csv")]

/-- demoTrPre: the trace the prefix produces. -/
def demoTrPre : List Event := [Event.fetchT "users", Event.uploadT "u.csv"]

/-- demoSt: the storage after the prefix's successful upload. -/
def demoSt : Storage := putObject [] "u.csv" (rows_to_csv_bytes [[("id", "1")]])

/-- emptyEnv: a world where every table is empty and all uploads are
accepted. -/
def emptyEnv : Env where
  fetchServer := fun _ _ _ => (200, [])
  uploadStatus := fun _ _ => 200

/-! ## Witnesses -/

/-- Witness for C1 at a 5-row table with page size 2 and fuel 10. -/
theorem pagination_complete_witness :
    (0 < 2 ∧ (sampleTable.length + 2 - 1) / 2 + 1 ≤ 10)
    ∧ (fetch_all_rows (tableServer sampleTable) 2 10
        = some (.success sampleTable ((sampleTable.length + 2 - 1) / 2 + 1))
      ∧ (tableServer sampleTable 2 (2 * ((sampleTable.length + 2 - 1) / 2))).2 = []) :=
  ⟨⟨by decide, by decide⟩, pagination_complete sampleTable 2 10 (by decide) (by decide)⟩

/-- Witness for C8: the halting server's empty page at offset 4 = 2·2
makes the loop exit successfully after 3 requests. -/
theorem fetch_terminates_on_empty_page_witness :
    ((∀ j < 2, ¬isErrStatus (haltingServer 2 (j * 2)).1 ∧ (haltingServer 2 (j * 2)).2 ≠ [])
      ∧ ¬isErrStatus (haltingServer 2 (2 * 2)).1
      ∧ (haltingServer 2 (2 * 2)).2 = []
      ∧ 2 < 5)
    ∧ ∃ rows, fetch_all_rows haltingServer 2 5 = some (.success rows (2 + 1)) :=
  ⟨⟨by decide, by decide, by decide, by decide⟩,
    fetch_terminates_on_empty_page haltingServer 2 2 5
      (by decide) (by decide) (by decide) (by decide)⟩

/-- Witness for C5 (amended) at the error server: offset 0 succeeds,
offset 2000 answers 503, and the run fails with status 503 after
exactly 2 requests. -/
theorem request_error_iff_4xx_5xx_witness :
    ((∀ j < 1, ¬isErrStatus (errServer 2000 (j * 2000)).1
        ∧ (errServer 2000 (j * 2000)).2 ≠ [])
      ∧ isErrStatus (errServer 2000 (1 * 2000)).1
      ∧ 1 < 3)
    ∧ fetch_all_rows errServer 2000 3
        = some (.failure (errServer 2000 (1 * 2000)).1 (1 + 1)) :=
  ⟨⟨by decide, by decide, by decide⟩,
    request_error_iff_4xx_5xx.2.2 errServer 2000 1 3 (by decide) (by decide) (by decide)⟩

/-- Witness for C3 at records `rA` (keys a, b, c) and `rB` (keys a, d):
dropping `rB`'s extra key d changes nothing, and the missing key b
yields an empty cell at header position 1. -/
theorem csv_header_policy_witness :
    (rB ∈ rA :: [rB]
      ∧ (keys rA)[1]? = some "b"
      ∧ dictGet "b" rB = none)
    ∧ recordFields (keys rA) rB
        = recordFields (keys rA) (rB.filter fun kv => decide (kv.1 ∈ keys rA))
    ∧ (recordFields (keys rA) rB)[1]? = some "" :=
  ⟨⟨by decide, by rfl, by rfl⟩,
    (csv_header_policy rA [rB]).2.2.1 rB (by decide),
    (csv_header_policy rA [rB]).2.2.2 rB (by decide) 1 "b" (by rfl) (by rfl)⟩

/-- Witness for C6: the bikes target of the fixed list at base path
`datasets` and run date `20240115` has exactly the claimed key. -/
theorem dest_path_naming_witness :
    ("bikes", "datasets/bikes_20240115.csv") ∈ overwrite_datasets "datasets" "20240115"
    ∧ "datasets/bikes_20240115.csv" = destKey "datasets" "bikes" "20240115" :=
  ⟨by decide,
    dest_path_naming.1 "datasets" "20240115" "bikes" "datasets/bikes_20240115.csv" (by decide)⟩

/-- Witness for C2: `users` succeeds, `weekly_sales` fails its fetch
with a 500, and the run surfaces the 500 with `hubs` never attempted
and the `users` object still in storage. -/
theorem fail_fast_ordering_witness :
    (runTargets demoEnv 3 demoPre [] = some (demoTrPre, demoSt, none)
      ∧ ((∃ s n, fetch_all_rows (demoEnv.fetchServer "weekly_sales") 2000 3
            = some (.failure s n))
        ∨ (∃ rows n, fetch_all_rows (demoEnv.fetchServer "weekly_sales") 2000 3
              = some (.success rows n)
            ∧ isErrStatus (demoEnv.uploadStatus "w.csv" (rows_to_csv_bytes rows)))))
    ∧ ∃ (trFail : List Event) (s : Nat),
        runTargets demoEnv 3 (demoPre ++ ("weekly_sales", "w.csv") :: [("hubs", "h.csv")]) []
          = some (demoTrPre ++ trFail, demoSt, some s)
        ∧ (trFail = [Event.fetchT "weekly_sales"]
          ∨ trFail = [Event.fetchT "weekly_sales", Event.uploadT "w.csv"]) :=
  ⟨⟨by rfl, Or.inl ⟨500, 1, by rfl⟩⟩,
    fail_fast_ordering demoEnv 3 demoPre [("hubs", "h.csv")] "weekly_sales" "w.csv"
      [] demoSt demoTrPre (by rfl) (Or.inl ⟨500, 1, by rfl⟩)⟩

/-- Witness for C9: the all-empty backend still gets an upload of the
zero-length body for table `stations`, creating the empty object. -/
theorem empty_table_still_uploads_witness :
    (fetch_all_rows (emptyEnv.fetchServer "stations") 2000 2 = some (.success [] 1)
      ∧ ¬isErrStatus (emptyEnv.uploadStatus "s.csv" []))
    ∧ (export_overwrite emptyEnv 2 "stations" "s.csv" []
        = some ([Event.fetchT "stations", Event.uploadT "s.csv"], putObject [] "s.csv" [], none)
      ∧ rows_to_csv_bytes [] = []
      ∧ dictGet "s.csv" (putObject [] "s.csv" []) = some []) :=
  ⟨⟨by rfl, by decide⟩,
    empty_table_still_uploads emptyEnv 2 "stations" "s.csv" [] 1 (by rfl) (by decide)⟩

end ExportToStorage
